import Mathlib

/-!
Shallow embedding of the Shelter-Map detection pipeline.

Source artefacts embedded here:
* the `detections` SQL table with its CHECK constraints (migration file);
* `CameraFeed.tsx`: `getCurrentLocation`, `saveDetectionToDatabase`, the
  mock-detection interval effect and the transient overlay ring;
* `DetectionMap` (Supabase variant): `loadDetections` (catch-up query,
  `order('timestamp', descending)`, `limit(50)`) and the realtime INSERT
  handler `setDetections(prev => [...prev, newDetection])`;
* `Index.tsx`: `handleDetection`;
* `DetectionStats.tsx`: `getContextStats` (count per context, stable sort
  by count descending, `slice(0, 3)`).

Numbers: latitude/longitude/confidence are rationals (the source values are
decimal literals), timestamps are naturals (milliseconds), ids are naturals
(the mock detector uses `Date.now().toString()`; the database uses UUIDs —
only uniqueness and equality of ids matter to the claims).

JavaScript's `Array.prototype.sort` is stable (guaranteed since ES2019), so
it is embedded as an insertion sort over index-tagged elements ordered
lexicographically by (key descending, original position ascending), which is
exactly stable sorting by the key descending.  PostgreSQL's
`order by timestamp desc` leaves the relative order of equal-`timestamp`
rows unspecified: the issued query is therefore described twice — by the
relation `isQueryResult`, the faithful contract admitting every tie order,
and by the executable function `loadDetections`, one admissible refinement
used where conclusions do not depend on the tie order.
-/

namespace ShelterMap

/-- A committed row of the `detections` table (migration file):
`id`, `lat`, `lon`, `object_type`, `context`, `confidence`,
`timestamp` (client-supplied by `saveDetectionToDatabase`),
`created_at` (server default `now()`). -/
structure Row where
  id : ℕ
  lat : ℚ
  lon : ℚ
  object_type : String
  context : String
  confidence : ℚ
  timestamp : ℕ
  created_at : ℕ
deriving DecidableEq, Repr

/-- The payload `saveDetectionToDatabase` sends to
`supabase.from('detections').insert(...)`: everything of a row except the
server-assigned `id` and `created_at`. -/
structure Candidate where
  lat : ℚ
  lon : ℚ
  object_type : String
  context : String
  confidence : ℚ
  timestamp : ℕ
deriving DecidableEq, Repr

/-- CHECK `object_type IN ('tent', 'blanket', 'cardboard')`. -/
def objectTypeOk (s : String) : Bool :=
  decide (s = "tent") || decide (s = "blanket") || decide (s = "cardboard")

/-- CHECK `context IN ('street', 'park', 'subway', 'bus', 'train', 'unknown')`. -/
def contextOk (s : String) : Bool :=
  decide (s = "street") || decide (s = "park") || decide (s = "subway") ||
  decide (s = "bus") || decide (s = "train") || decide (s = "unknown")

/-- CHECK `confidence >= 0 AND confidence <= 1`. -/
def confidenceOk (q : ℚ) : Bool :=
  decide (0 ≤ q) && decide (q ≤ 1)

/-- The constrained columns of the `detections` table, used to report which
CHECK constraint a rejected insert violated. -/
inductive Field where
  | object_type
  | context
  | confidence
deriving DecidableEq, Repr

/-- Evaluate the table's CHECK constraints on an insert payload, reporting
the first violated constraint in table-definition order, or `none` when the
payload satisfies all of them. -/
def checkCandidate (c : Candidate) : Option Field :=
  if !objectTypeOk c.object_type then some Field.object_type
  else if !contextOk c.context then some Field.context
  else if !confidenceOk c.confidence then some Field.confidence
  else none

/-- One database insert: the server assigns `id` (`gen_random_uuid()`) and
`created_at` (`now()`), both supplied here by the environment.  A payload
violating a CHECK constraint is rejected atomically — the table is returned
unchanged together with the violated field; otherwise the new row is
appended. -/
def insertDetection (s : List Row) (c : Candidate) (newId tRec : ℕ) :
    List Row × Option Field :=
  match checkCandidate c with
  | some f => (s, some f)
  | none =>
      (s ++ [⟨newId, c.lat, c.lon, c.object_type, c.context, c.confidence,
              c.timestamp, tRec⟩], none)

/-- The realtime INSERT handler of the Supabase `DetectionMap` variant:
`setDetections(prev => [...prev, newDetection])` — the freshly committed row
is appended to the local view unconditionally. -/
def handleInsertNotification (view : List Row) (d : Row) : List Row :=
  view ++ [d]

/-- A fixed well-formed row used for concrete counterexamples. -/
def sampleRow : Row :=
  ⟨1, 0, 0, "tent", "street", 1, 0, 0⟩

/-- Ordering used to embed `order('timestamp', { ascending: false })` on
index-tagged rows: later `timestamp` first.  The order clause itself says
nothing about rows with equal `timestamp` — see `isQueryResult` for the
contract of the issued query — so to keep the embedding an executable
function this relation fixes one admissible resolution (original position)
for ties; no theorem below about the real query depends on that choice. -/
def rowRel (a b : ℕ × Row) : Prop :=
  b.2.timestamp < a.2.timestamp ∨ (a.2.timestamp = b.2.timestamp ∧ a.1 ≤ b.1)

instance : DecidableRel rowRel := fun a b => by
  unfold rowRel; infer_instance

instance : IsTotal (ℕ × Row) rowRel where
  total a b := by
    unfold rowRel
    rcases Nat.lt_trichotomy a.2.timestamp b.2.timestamp with h | h | h
    · exact Or.inr (Or.inl h)
    · rcases Nat.le_total a.1 b.1 with h' | h'
      · exact Or.inl (Or.inr ⟨h, h'⟩)
      · exact Or.inr (Or.inr ⟨h.symm, h'⟩)
    · exact Or.inl (Or.inl h)

instance : IsTrans (ℕ × Row) rowRel where
  trans a b c hab hbc := by
    unfold rowRel at *
    rcases hab with h₁ | ⟨h₁, h₁'⟩ <;> rcases hbc with h₂ | ⟨h₂, h₂'⟩
    · exact Or.inl (h₂.trans h₁)
    · exact Or.inl (h₂ ▸ h₁)
    · exact Or.inl (h₁ ▸ h₂)
    · exact Or.inr ⟨h₁.trans h₂, h₁'.trans h₂'⟩

/-- The `select * order by timestamp desc limit n` query issued by
`loadDetections`, keeping the insertion position of each returned row
(used to state the tie behaviour).  The stored list is in insertion
(commit) order; the result is its stable sort by `timestamp` descending,
truncated to `n` rows. -/
def queryIdx (n : ℕ) (store : List Row) : List (ℕ × Row) :=
  (List.insertionSort rowRel store.enum).take n

/-- The rows returned by the catch-up query, most recent `timestamp`
first. -/
def queryDetections (n : ℕ) (store : List Row) : List Row :=
  (queryIdx n store).map Prod.snd

/-- `loadDetections` of the Supabase `DetectionMap` variant: catch-up query
ordered by the `timestamp` column descending with `limit(50)`. -/
def loadDetections (store : List Row) : List Row :=
  queryDetections 50 store

/-- The contract of the SQL query
`select * order by timestamp desc limit n` that `loadDetections` issues:
PostgreSQL returns the first `n` rows of some arrangement of the stored
rows consistent with the order clause.  The clause constrains only the
`timestamp` column, so a result is admissible iff it is the `n`-prefix of
a permutation of the store sorted by `timestamp` descending — the relative
order of rows with equal `timestamp` is unspecified. -/
def isQueryResult (n : ℕ) (store res : List Row) : Prop :=
  ∃ l : List Row, List.Perm l store ∧
    List.Pairwise (fun a b => b.timestamp ≤ a.timestamp) l ∧ res = l.take n

/-- A detection produced by `CameraFeed`'s simulated detector: id
(`Date.now().toString()`), object type, context, confidence, bounding
box. -/
structure Detection where
  id : ℕ
  type : String
  context : String
  confidence : ℚ
  bboxX : ℚ
  bboxY : ℚ
  bboxW : ℚ
  bboxH : ℚ
deriving DecidableEq, Repr

/-- Outcome of the browser geolocation request observed by
`getCurrentLocation`: a position, an error callback, or a missing
`navigator.geolocation` API. -/
inductive GeoOutcome where
  | position (lat lon : ℚ)
  | failure
  | unsupported
deriving DecidableEq, Repr

/-- The fallback coordinate hard-coded in `CameraFeed.getCurrentLocation`
(and in `Index.tsx`): `{ lat: 40.7128, lon: -74.0060 }` (NYC). -/
def defaultLocation : ℚ × ℚ :=
  (40.7128, -74.0060)

/-- `CameraFeed.getCurrentLocation`: the user location state after the
geolocation request settles — the reported position on success, the NYC
default on error or when geolocation is unsupported. -/
def getCurrentLocation : GeoOutcome → Option (ℚ × ℚ)
  | GeoOutcome.position la lo => some (la, lo)
  | GeoOutcome.failure => some defaultLocation
  | GeoOutcome.unsupported => some defaultLocation

/-- What a call to `CameraFeed.saveDetectionToDatabase` leaves behind: the
table contents, the violated field if the insert errored
(`console.error(...)`), and the payload passed to the `onDetection`
callback if the insert succeeded. -/
structure SaveResult where
  store : List Row
  errorLogged : Option Field
  callback : Option Candidate
deriving DecidableEq, Repr

/-- `CameraFeed.saveDetectionToDatabase`: returns immediately when
`userLocation` is `null`; otherwise builds `detectionData` from the user
location, the detection fields and the current time, inserts it, and on
success (and only then) invokes `onDetection`. -/
def saveDetectionToDatabase (userLocation : Option (ℚ × ℚ)) (d : Detection)
    (s : List Row) (newId tObs tRec : ℕ) : SaveResult :=
  match userLocation with
  | none => ⟨s, none, none⟩
  | some (la, lo) =>
      let detectionData : Candidate :=
        ⟨la, lo, d.type, d.context, d.confidence, tObs⟩
      match insertDetection s detectionData newId tRec with
      | (s', none) => ⟨s', none, some detectionData⟩
      | (s', some f) => ⟨s', some f, none⟩

/-- The transient overlay append of `CameraFeed`'s interval effect:
`setDetections(prev => [...prev.slice(-4), newDetection])` — keep at most
the four most recent previous overlays and add the new one. -/
def overlayAppend (ring : List Detection) (d : Detection) : List Detection :=
  ring.drop (ring.length - 4) ++ [d]

/-- The timeout body removing an overlay again:
`setDetections(prev => prev.filter(d => d.id !== newDetection.id))`. -/
def overlayExpire (ring : List Detection) (i : ℕ) : List Detection :=
  ring.filter (fun x => x.id != i)

/-- The delay (ms) after which the timeout removes an overlay. -/
def overlayDisplayMs : ℕ :=
  3000

/-- The pieces of `CameraFeed` state the interval effect touches: the
transient overlay ring and the durable table. -/
structure FeedState where
  ring : List Detection
  store : List Row
deriving DecidableEq, Repr

/-- The events affecting that state: a simulated detection arriving (with
the current location and the server-chosen id/commit time), or an
overlay-removal timeout firing. -/
inductive FeedOp where
  | arrive (d : Detection) (loc : Option (ℚ × ℚ)) (newId tObs tRec : ℕ)
  | expire (i : ℕ)

/-- One step of `CameraFeed`'s interval effect: an arriving detection is
appended to the overlay ring (capped) and saved to the database; an expiry
timeout only filters the overlay ring. -/
def feedStep (fs : FeedState) : FeedOp → FeedState
  | FeedOp.arrive d loc newId tObs tRec =>
      ⟨overlayAppend fs.ring d,
       (saveDetectionToDatabase loc d fs.store newId tObs tRec).store⟩
  | FeedOp.expire i => ⟨overlayExpire fs.ring i, fs.store⟩

/-- The durable-store projection of `feedStep`: how the table alone evolves
under the same events, with no reference to the overlay ring. -/
def storeStep (s : List Row) : FeedOp → List Row
  | FeedOp.arrive d loc newId tObs tRec =>
      (saveDetectionToDatabase loc d s newId tObs tRec).store
  | FeedOp.expire _ => s

/-- The `types` array of the mock detection effect. -/
def mockTypes : List String :=
  ["tent", "blanket", "cardboard"]

/-- The `contexts` array of the mock detection effect — note it omits
`'unknown'`. -/
def mockContexts : List String :=
  ["street", "park", "subway", "bus", "train"]

/-- Out-of-range fallback label (a JavaScript index miss would give
`undefined`; the proofs show the indices are always in range). -/
def missLabel : String :=
  ""

/-- The simulated detection built by `CameraFeed`'s interval effect.
`now` is `Date.now()`; each `u…` argument is one `Math.random()` draw in
`[0, 1)`:
`types[Math.floor(Math.random() * types.length)]`,
`contexts[Math.floor(Math.random() * contexts.length)]`,
`confidence: 0.75 + Math.random() * 0.2`, and the bounding-box fields
`x: …*200+50`, `y: …*150+50`, `width: …*100+50`, `height: …*80+40`. -/
def mkMockDetection (now : ℕ) (uType uCtx uConf ux uy uw uh : ℚ) :
    Detection where
  id := now
  type := mockTypes.getD ⌊uType * 3⌋₊ missLabel
  context := mockContexts.getD ⌊uCtx * 5⌋₊ missLabel
  confidence := 0.75 + uConf * 0.2
  bboxX := ux * 200 + 50
  bboxY := uy * 150 + 50
  bboxW := uw * 100 + 50
  bboxH := uh * 80 + 40

/-- `Index.handleDetection`: drops the detection when the page-level
`userLocation` is still `null`; otherwise appends it (with jittered
coordinates and a fresh timestamp) to the page-level `detections` list via
`setDetections(prev => [...prev, newDetection])`. `jLat`/`jLon` are the
already-jittered coordinates (`userLocation ± Math.random() offsets`). -/
def handleDetection (userLocation : Option (ℚ × ℚ)) (view : List Candidate)
    (d : Detection) (jLat jLon : ℚ) (tObs : ℕ) : List Candidate :=
  match userLocation with
  | none => view
  | some _ => view ++ [⟨jLat, jLon, d.type, d.context, d.confidence, tObs⟩]

/-- Ordering used to embed `DetectionStats.getContextStats`'s
`.sort((a, b) => b.count - a.count)` on index-tagged `(context, count)`
entries: larger count first, equal counts in their original (first-seen)
order.  JavaScript's sort is stable, so this is exactly its behaviour. -/
def statsRel (a b : ℕ × String × ℕ) : Prop :=
  b.2.2 < a.2.2 ∨ (a.2.2 = b.2.2 ∧ a.1 ≤ b.1)

instance : DecidableRel statsRel := fun a b => by
  unfold statsRel; infer_instance

instance : IsTotal (ℕ × String × ℕ) statsRel where
  total a b := by
    unfold statsRel
    rcases Nat.lt_trichotomy a.2.2 b.2.2 with h | h | h
    · exact Or.inr (Or.inl h)
    · rcases Nat.le_total a.1 b.1 with h' | h'
      · exact Or.inl (Or.inr ⟨h, h'⟩)
      · exact Or.inr (Or.inr ⟨h.symm, h'⟩)
    · exact Or.inl (Or.inl h)

instance : IsTrans (ℕ × String × ℕ) statsRel where
  trans a b c hab hbc := by
    unfold statsRel at *
    rcases hab with h₁ | ⟨h₁, h₁'⟩ <;> rcases hbc with h₂ | ⟨h₂, h₂'⟩
    · exact Or.inl (h₂.trans h₁)
    · exact Or.inl (h₂ ▸ h₁)
    · exact Or.inl (h₁ ▸ h₂)
    · exact Or.inr ⟨h₁.trans h₂, h₁'.trans h₂'⟩

/-- One step of `getContextStats`'s `reduce`:
`acc[detection.context] = (acc[detection.context] || 0) + 1` on a
JavaScript object, whose string keys stay in insertion order — an existing
key is bumped in place, a new key is appended at the end. -/
def bumpContext (acc : List (String × ℕ)) (c : String) : List (String × ℕ) :=
  match acc with
  | [] => [(c, 1)]
  | (k, n) :: rest =>
      if k = c then (k, n + 1) :: rest else (k, n) :: bumpContext rest c

/-- The `(context, count)` entries accumulated by `getContextStats`'s
`reduce` + `Object.entries`, in first-seen order of the context labels. -/
def contextCounts (ds : List Candidate) : List (String × ℕ) :=
  ds.foldl (fun acc d => bumpContext acc d.context) []

/-- `DetectionStats.getContextStats` with each entry tagged by its
first-seen position: stable sort by count descending, then `slice(0, 3)`. -/
def getContextStatsIdx (ds : List Candidate) : List (ℕ × String × ℕ) :=
  (List.insertionSort statsRel (contextCounts ds).enum).take 3

/-- `DetectionStats.getContextStats`: the top three `(context, count)`
entries by count, ties resolved in favour of the first-seen label. -/
def getContextStats (ds : List Candidate) : List (String × ℕ) :=
  (getContextStatsIdx ds).map Prod.snd

/-! ### Bridging lemmas between the Bool-valued CHECK constraints and the
spec-level enumerations/intervals. -/

/-- The `object_type` enumeration of the table's CHECK constraint. -/
def objectTypes : List String :=
  ["tent", "blanket", "cardboard"]

/-- The `context` enumeration of the table's CHECK constraint (this one
does include `'unknown'`). -/
def contextLabels : List String :=
  ["street", "park", "subway", "bus", "train", "unknown"]

theorem objectTypeOk_iff (s : String) :
    objectTypeOk s = true ↔ s ∈ objectTypes := by
  simp [objectTypeOk, objectTypes, or_assoc]

theorem contextOk_iff (s : String) :
    contextOk s = true ↔ s ∈ contextLabels := by
  simp [contextOk, contextLabels, or_assoc]

theorem confidenceOk_iff (q : ℚ) :
    confidenceOk q = true ↔ 0 ≤ q ∧ q ≤ 1 := by
  simp [confidenceOk]

/-- Which spec-level validity condition a reported `Field` stands for. -/
def fieldViolated : Field → Candidate → Prop
  | Field.object_type, c => c.object_type ∉ objectTypes
  | Field.context, c => c.context ∉ contextLabels
  | Field.confidence, c => ¬(0 ≤ c.confidence ∧ c.confidence ≤ 1)

/-! ### Helper lemmas about the embedded catch-up query. -/

theorem queryIdx_pairwise (n : ℕ) (store : List Row) :
    List.Pairwise rowRel (queryIdx n store) :=
  (List.sorted_insertionSort rowRel store.enum).sublist
    (List.take_sublist n _)

theorem queryIdx_length (n : ℕ) (store : List Row) :
    (queryIdx n store).length = min n store.length := by
  unfold queryIdx
  rw [List.length_take, (List.perm_insertionSort rowRel store.enum).length_eq,
    List.enum_length]

theorem mem_of_mem_queryIdx {n : ℕ} {store : List Row} {p : ℕ × Row}
    (h : p ∈ queryIdx n store) : p ∈ store.enum := by
  have h₁ : p ∈ List.insertionSort rowRel store.enum :=
    (List.take_sublist n _).mem h
  exact ((List.perm_insertionSort rowRel store.enum).mem_iff).mp h₁

theorem mem_of_mem_queryDetections {n : ℕ} {store : List Row} {r : Row}
    (h : r ∈ queryDetections n store) : r ∈ store := by
  unfold queryDetections at h
  rcases List.mem_map.mp h with ⟨p, hp, hsnd⟩
  have h₂ : p ∈ store.enum := mem_of_mem_queryIdx hp
  have h₃ : p.2 ∈ store.enum.map Prod.snd := List.mem_map_of_mem Prod.snd h₂
  rw [List.enum_map_snd] at h₃
  exact hsnd ▸ h₃

theorem queryDetections_pairwise (n : ℕ) (store : List Row) :
    List.Pairwise (fun a b => b.timestamp ≤ a.timestamp)
      (queryDetections n store) := by
  unfold queryDetections
  rw [List.pairwise_map]
  refine (queryIdx_pairwise n store).imp ?_
  intro a b hab
  rcases hab with h | ⟨h, _⟩
  · exact le_of_lt h
  · exact le_of_eq h.symm

theorem queryDetections_length (n : ℕ) (store : List Row) :
    (queryDetections n store).length = min n store.length := by
  unfold queryDetections
  rw [List.length_map, queryIdx_length]

/-! ### Helper lemmas about the Ingestion Gateway (table CHECK constraints). -/

theorem checkCandidate_eq_none_iff (c : Candidate) :
    checkCandidate c = none ↔
      objectTypeOk c.object_type = true ∧ contextOk c.context = true ∧
        confidenceOk c.confidence = true := by
  unfold checkCandidate
  cases h1 : objectTypeOk c.object_type <;>
    cases h2 : contextOk c.context <;>
      cases h3 : confidenceOk c.confidence <;> simp

/-- The spec's invariant on accepted events: confidence in `[0, 1]` and
both labels inside their enumerations. -/
def rowValid (r : Row) : Prop :=
  (0 ≤ r.confidence ∧ r.confidence ≤ 1) ∧
    r.object_type ∈ objectTypes ∧ r.context ∈ contextLabels

/-- Replay a whole sequence of submissions against the table, each with its
server-chosen id and commit time. -/
def runSubmissions (s : List Row) (xs : List (Candidate × ℕ × ℕ)) :
    List Row :=
  xs.foldl (fun t x => (insertDetection t x.1 x.2.1 x.2.2).1) s

theorem insertDetection_preserves_valid (s : List Row) (c : Candidate)
    (newId tRec : ℕ) (h : ∀ r ∈ s, rowValid r) :
    ∀ r ∈ (insertDetection s c newId tRec).1, rowValid r := by
  unfold insertDetection
  cases hc : checkCandidate c with
  | some f => simpa using h
  | none =>
      intro r hr
      rcases List.mem_append.mp hr with hr | hr
      · exact h r hr
      · rcases (checkCandidate_eq_none_iff c).mp hc with ⟨h1, h2, h3⟩
        have hr' : r = ⟨newId, c.lat, c.lon, c.object_type, c.context,
            c.confidence, c.timestamp, tRec⟩ := List.mem_singleton.mp hr
        subst hr'
        exact ⟨(confidenceOk_iff _).mp h3, (objectTypeOk_iff _).mp h1,
          (contextOk_iff _).mp h2⟩

/-! ### Claim theorems. -/

/-- C1 (counterexample): the incoming-event merge of the Client State
Synchronizer is not idempotent.  With a local view already holding the row
with id 1, merging a live notification for that same row leaves two entries
with id 1, not one — `setDetections(prev => [...prev, newDetection])`
appends unconditionally. -/
theorem c1_merge_counterexample :
    sampleRow.id = 1 ∧
      List.countP (fun x => x.id == 1) [sampleRow] = 1 ∧
      ¬ List.countP (fun x => x.id == 1)
          (handleInsertNotification [sampleRow] sampleRow) = 1 := by
  decide

/-- C1 (amended): merging an incoming live notification into the local view
appends it unconditionally, so the number of entries carrying its id always
grows by one — an event delivered both via catch-up and via a live
notification is stored twice. -/
theorem c1_merge_appends_duplicate (view : List Row) (d : Row) :
    List.countP (fun x => x.id == d.id) (handleInsertNotification view d) =
      List.countP (fun x => x.id == d.id) view + 1 := by
  simp [handleInsertNotification, List.countP_append, List.countP_cons]

/-- C3: a submission whose `object_type` or `context` lies outside its
enumeration or whose `confidence` lies outside `[0, 1]` is rejected by a
CHECK constraint naming a field that indeed fails, and the table — contents
and hence size — is returned unchanged (no partial commit). -/
theorem c3_invalid_submission_rejected_atomically (s : List Row)
    (c : Candidate) (newId tRec : ℕ)
    (h : c.object_type ∉ objectTypes ∨ c.context ∉ contextLabels ∨
      ¬(0 ≤ c.confidence ∧ c.confidence ≤ 1)) :
    ∃ f, insertDetection s c newId tRec = (s, some f) ∧ fieldViolated f c := by
  by_cases h1 : objectTypeOk c.object_type = true
  · by_cases h2 : contextOk c.context = true
    · have h3 : ¬ confidenceOk c.confidence = true := by
        rcases h with h | h | h
        · exact absurd ((objectTypeOk_iff _).mp h1) h
        · exact absurd ((contextOk_iff _).mp h2) h
        · exact fun hc => h ((confidenceOk_iff _).mp hc)
      have h3' : confidenceOk c.confidence = false := by simpa using h3
      refine ⟨Field.confidence, ?_, ?_⟩
      · unfold insertDetection checkCandidate
        simp [h1, h2, h3']
      · exact fun hc => h3 ((confidenceOk_iff _).mpr hc)
    · have h2' : contextOk c.context = false := by simpa using h2
      refine ⟨Field.context, ?_, ?_⟩
      · unfold insertDetection checkCandidate
        simp [h1, h2']
      · exact fun hc => h2 ((contextOk_iff _).mpr hc)
  · have h1' : objectTypeOk c.object_type = false := by simpa using h1
    refine ⟨Field.object_type, ?_, ?_⟩
    · unfold insertDetection checkCandidate
      simp [h1']
    · exact fun hc => h1 ((objectTypeOk_iff _).mpr hc)

/-- C3 witness: the spec's own example — confidence 1.5, valid type and
context — is rejected with the `confidence` field named and the (empty)
table unchanged. -/
theorem c3_witness :
    ∃ f, insertDetection [] ⟨40.7, -74.0, "tent", "park", 1.5, 0⟩ 1 1 =
        ([], some f) ∧ fieldViolated f ⟨40.7, -74.0, "tent", "park", 1.5, 0⟩ :=
  c3_invalid_submission_rejected_atomically [] _ 1 1
    (Or.inr (Or.inr (by norm_num)))

/-- C4: after replaying any sequence of submissions against any table whose
rows already satisfy the invariant, every stored row still has
`confidence ∈ [0, 1]`, `object_type` in its enumeration and `context` in
its enumeration — inserts only ever append rows that passed every CHECK
constraint. -/
theorem c4_store_invariant (xs : List (Candidate × ℕ × ℕ)) (s : List Row)
    (h : ∀ r ∈ s, rowValid r) :
    ∀ r ∈ runSubmissions s xs, rowValid r := by
  induction xs generalizing s with
  | nil => simpa [runSubmissions] using h
  | cons x xs ih =>
      have h' := insertDetection_preserves_valid s x.1 x.2.1 x.2.2 h
      simpa [runSubmissions, List.foldl_cons] using ih _ h'

/-- C4 witness: submitting one valid candidate to the empty table yields a
table whose single row satisfies the invariant. -/
theorem c4_witness :
    rowValid ⟨7, 40.7, -74.0, "tent", "park", 1, 5, 6⟩ :=
  c4_store_invariant [(⟨40.7, -74.0, "tent", "park", 1, 5⟩, 7, 6)] []
    (by simp) _ (by norm_num [runSubmissions, insertDetection, checkCandidate,
      objectTypeOk, contextOk, confidenceOk])

/-- A row committed first (`created_at` 1) but carrying the later
client-side observation timestamp (10). -/
def rowLateObs : Row :=
  ⟨1, 0, 0, "tent", "street", 1, 10, 1⟩

/-- A row committed second (`created_at` 2) but observed earlier
(timestamp 5). -/
def rowEarlyObs : Row :=
  ⟨2, 0, 0, "tent", "street", 1, 5, 2⟩

/-- C2 (counterexample): the catch-up query does not order by the
server-assigned record timestamp.  For a store whose two rows were
committed at server times 1 then 2 but observed in the opposite order, the
query returns `created_at` values `[1, 2]` — not descending by commit
time, because `loadDetections` orders by the client-supplied `timestamp`
column. -/
theorem c2_counterexample :
    rowLateObs.created_at < rowEarlyObs.created_at ∧
      (loadDetections [rowLateObs, rowEarlyObs]).map Row.created_at =
        [1, 2] ∧
      ¬ List.Pairwise (fun a b => b ≤ a)
          ((loadDetections [rowLateObs, rowEarlyObs]).map Row.created_at) := by
  decide

/-- C2 (amended): the catch-up query returns at most 50 rows, all taken
from the store, ordered by the client-supplied `timestamp` column
descending (the observation time — not the server-assigned `created_at`);
in particular three events with observation timestamps t1 < t2 < t3 come
back latest first from a limit-3 query. -/
theorem c2_query_orders_by_observation_timestamp (store : List Row)
    (r1 r2 r3 : Row) (h12 : r1.timestamp < r2.timestamp)
    (h23 : r2.timestamp < r3.timestamp) :
    ((∀ x ∈ loadDetections store, x ∈ store) ∧
      List.Pairwise (fun a b => b.timestamp ≤ a.timestamp)
        (loadDetections store) ∧
      (loadDetections store).length = min 50 store.length) ∧
    queryDetections 3 [r1, r2, r3] = [r3, r2, r1] := by
  refine ⟨⟨fun x hx => mem_of_mem_queryDetections hx,
    queryDetections_pairwise 50 store, queryDetections_length 50 store⟩, ?_⟩
  have n23 : ¬ rowRel (1, r2) (2, r3) := by
    simp only [rowRel]; omega
  have n13 : ¬ rowRel (0, r1) (2, r3) := by
    simp only [rowRel]; omega
  have n12 : ¬ rowRel (0, r1) (1, r2) := by
    simp only [rowRel]; omega
  unfold queryDetections queryIdx
  rw [show List.enum [r1, r2, r3] = [(0, r1), (1, r2), (2, r3)] from rfl]
  simp only [List.insertionSort, List.orderedInsert]
  rw [if_neg n23]
  rw [List.orderedInsert, if_neg n13, List.orderedInsert, if_neg n12,
    List.orderedInsert]
  rfl

/-- C2 witness: three concrete rows with observation timestamps
10 < 20 < 30 are returned latest first. -/
theorem c2_witness :
    queryDetections 3
        [⟨1, 0, 0, "tent", "street", 1, 10, 1⟩,
         ⟨2, 0, 0, "tent", "street", 1, 20, 2⟩,
         ⟨3, 0, 0, "tent", "street", 1, 30, 3⟩] =
      [⟨3, 0, 0, "tent", "street", 1, 30, 3⟩,
       ⟨2, 0, 0, "tent", "street", 1, 20, 2⟩,
       ⟨1, 0, 0, "tent", "street", 1, 10, 1⟩] :=
  (c2_query_orders_by_observation_timestamp []
    ⟨1, 0, 0, "tent", "street", 1, 10, 1⟩
    ⟨2, 0, 0, "tent", "street", 1, 20, 2⟩
    ⟨3, 0, 0, "tent", "street", 1, 30, 3⟩
    (by decide) (by decide)).2

/-- A row with id 2 whose `timestamp` ties the next row's. -/
def rowTieA : Row :=
  ⟨2, 0, 0, "tent", "street", 1, 5, 1⟩

/-- A row with id 1 and the same `timestamp` as `rowTieA`. -/
def rowTieB : Row :=
  ⟨1, 0, 0, "tent", "street", 1, 5, 2⟩

/-- C5 (counterexample): the issued query applies no secondary sort on
`id` and does not determine the relative order of equal-`timestamp` rows.
For a store of two rows sharing a `timestamp`, both relative orders
satisfy the contract of the issued query (`order by timestamp desc`, no
other sort key): the two admissible outputs differ, and one of them lists
the ids as `[2, 1]`, not ascending — so the output is neither
deterministically tie-broken by `id` nor a function of the store
contents. -/
theorem c5_counterexample :
    rowTieA.timestamp = rowTieB.timestamp ∧
      isQueryResult 50 [rowTieA, rowTieB] [rowTieA, rowTieB] ∧
      isQueryResult 50 [rowTieA, rowTieB] [rowTieB, rowTieA] ∧
      [rowTieA, rowTieB] ≠ ([rowTieB, rowTieA] : List Row) ∧
      List.map Row.id [rowTieA, rowTieB] = [2, 1] ∧
      ¬ List.Pairwise (fun a b : ℕ => a ≤ b)
          (List.map Row.id [rowTieA, rowTieB]) :=
  ⟨rfl,
    ⟨[rowTieA, rowTieB], List.Perm.refl _, by decide, rfl⟩,
    ⟨[rowTieB, rowTieA], by decide, by decide, rfl⟩,
    by decide, by decide, by decide⟩

/-- C5 (amended): the order clause names only `timestamp`, so the query
guarantees just this much: every output admitted by its contract is sorted
by `timestamp` descending, has exactly `min 50 |store|` rows, and draws
every row from the store.  The relative order of equal-`timestamp` rows is
left unspecified — no secondary sort on `id` is issued — so the returned
sequence is not determined by the store contents (see the
counterexample). -/
theorem c5_query_guarantee_without_id_tiebreak (store res : List Row)
    (h : isQueryResult 50 store res) :
    List.Pairwise (fun a b => b.timestamp ≤ a.timestamp) res ∧
      res.length = min 50 store.length ∧ ∀ x ∈ res, x ∈ store := by
  obtain ⟨l, hperm, hsort, heq⟩ := h
  subst heq
  refine ⟨hsort.sublist (List.take_sublist 50 l), ?_, ?_⟩
  · rw [List.length_take, hperm.length_eq]
  · intro x hx
    exact hperm.mem_iff.mp ((List.take_sublist 50 l).mem hx)

/-- C5 witness: a concrete admissible output for the two-row tied store,
with the guarantees of the claim theorem instantiated on it. -/
theorem c5_witness :
    isQueryResult 50 [rowTieA, rowTieB] [rowTieA, rowTieB] ∧
      (List.Pairwise (fun a b => b.timestamp ≤ a.timestamp)
          [rowTieA, rowTieB] ∧
        ([rowTieA, rowTieB] : List Row).length =
          min 50 ([rowTieA, rowTieB] : List Row).length ∧
        ∀ x ∈ ([rowTieA, rowTieB] : List Row), x ∈ [rowTieA, rowTieB]) := by
  have hq : isQueryResult 50 [rowTieA, rowTieB] [rowTieA, rowTieB] :=
    ⟨[rowTieA, rowTieB], List.Perm.refl _, by decide, rfl⟩
  exact ⟨hq, c5_query_guarantee_without_id_tiebreak _ _ hq⟩

/-- C6: when the geolocation provider errors or is unavailable, a valid
detection candidate is still recorded — the insert succeeds with the fixed
default coordinate (lat 40.7128, lon -74.0060), no error is logged, and
the `onDetection` callback fires. -/
theorem c6_location_fallback_records_default (g : GeoOutcome) (d : Detection)
    (s : List Row) (newId tObs tRec : ℕ)
    (hg : g = GeoOutcome.failure ∨ g = GeoOutcome.unsupported)
    (ht : d.type ∈ objectTypes) (hc : d.context ∈ contextLabels)
    (h0 : 0 ≤ d.confidence) (h1 : d.confidence ≤ 1) :
    saveDetectionToDatabase (getCurrentLocation g) d s newId tObs tRec =
      ⟨s ++ [⟨newId, 40.7128, -74.0060, d.type, d.context, d.confidence,
          tObs, tRec⟩],
        none,
        some ⟨40.7128, -74.0060, d.type, d.context, d.confidence, tObs⟩⟩ := by
  have hchk : checkCandidate
      ⟨40.7128, -74.0060, d.type, d.context, d.confidence, tObs⟩ = none :=
    (checkCandidate_eq_none_iff _).mpr
      ⟨(objectTypeOk_iff _).mpr ht, (contextOk_iff _).mpr hc,
        (confidenceOk_iff _).mpr ⟨h0, h1⟩⟩
  rcases hg with hg | hg <;> subst hg <;>
    simp [saveDetectionToDatabase, getCurrentLocation, defaultLocation,
      insertDetection, hchk]

/-- A concrete valid simulated detection. -/
def wDet : Detection :=
  ⟨3, "tent", "street", 0.8, 0, 0, 0, 0⟩

/-- C6 witness: with the provider erroring, the concrete candidate is
committed at the NYC default coordinate. -/
theorem c6_witness :
    saveDetectionToDatabase (getCurrentLocation GeoOutcome.failure) wDet []
        4 5 6 =
      ⟨[⟨4, 40.7128, -74.0060, wDet.type, wDet.context, wDet.confidence,
          5, 6⟩],
        none,
        some ⟨40.7128, -74.0060, wDet.type, wDet.context, wDet.confidence,
          5⟩⟩ :=
  c6_location_fallback_records_default GeoOutcome.failure wDet [] 4 5 6
    (Or.inl rfl) (by decide) (by decide) (by norm_num [wDet])
    (by norm_num [wDet])

/-- C9: when the component-level `userLocation` is still `null`,
`saveDetectionToDatabase` returns immediately: the table is untouched, no
error is reported, and the `onDetection` callback is not invoked — the
candidate is silently dropped. -/
theorem c9_null_location_drops_silently (d : Detection) (s : List Row)
    (newId tObs tRec : ℕ) :
    saveDetectionToDatabase none d s newId tObs tRec =
      ⟨s, none, none⟩ :=
  rfl

/-! ### Helper lemmas for the Stats Aggregator claim. -/

theorem getContextStatsIdx_pairwise (ds : List Candidate) :
    List.Pairwise statsRel (getContextStatsIdx ds) :=
  (List.sorted_insertionSort statsRel (contextCounts ds).enum).sublist
    (List.take_sublist 3 _)

theorem getContextStatsIdx_length (ds : List Candidate) :
    (getContextStatsIdx ds).length = min 3 (contextCounts ds).length := by
  unfold getContextStatsIdx
  rw [List.length_take,
    (List.perm_insertionSort statsRel (contextCounts ds).enum).length_eq,
    List.enum_length]

theorem getContextStatsIdx_top (ds : List Candidate) :
    ∀ p ∈ getContextStatsIdx ds, ∀ q ∈ (contextCounts ds).enum,
      q ∉ getContextStatsIdx ds → q.2.2 ≤ p.2.2 := by
  intro p hp q hq hqn
  have hqS : q ∈ List.insertionSort statsRel (contextCounts ds).enum :=
    ((List.perm_insertionSort statsRel _).mem_iff).mpr hq
  have hsplit :
      (List.insertionSort statsRel (contextCounts ds).enum).take 3 ++
        (List.insertionSort statsRel (contextCounts ds).enum).drop 3 =
        List.insertionSort statsRel (contextCounts ds).enum :=
    List.take_append_drop 3 _
  have hpw : List.Pairwise statsRel
      ((List.insertionSort statsRel (contextCounts ds).enum).take 3 ++
        (List.insertionSort statsRel (contextCounts ds).enum).drop 3) := by
    rw [hsplit]
    exact List.sorted_insertionSort statsRel _
  have hrel := (List.pairwise_append.mp hpw).2.2
  rw [← hsplit] at hqS
  have hqdrop : q ∈ (List.insertionSort statsRel (contextCounts ds).enum).drop 3 := by
    rcases List.mem_append.mp hqS with h | h
    · exact absurd h hqn
    · exact h
  rcases hrel p hp q hqdrop with h | ⟨h, _⟩
  · exact le_of_lt h
  · exact le_of_eq h.symm

/-- C7: `getContextStats` output — the index-tagged form is sorted by count
descending with ties on equal count kept in ascending first-seen position
(the enumeration index assigned by `contextCounts`, which appends each new
context label at its first occurrence), it keeps at most three entries, the
untagged output is its projection, and every entry left out has a count no
larger than every entry kept.  Being a plain function of the event list,
the output is deterministic. -/
theorem c7_context_stats_top3 (ds : List Candidate) :
    List.Pairwise statsRel (getContextStatsIdx ds) ∧
      (getContextStatsIdx ds).length = min 3 (contextCounts ds).length ∧
      getContextStats ds = (getContextStatsIdx ds).map Prod.snd ∧
      ∀ p ∈ getContextStatsIdx ds, ∀ q ∈ (contextCounts ds).enum,
        q ∉ getContextStatsIdx ds → q.2.2 ≤ p.2.2 :=
  ⟨getContextStatsIdx_pairwise ds, getContextStatsIdx_length ds, rfl,
    getContextStatsIdx_top ds⟩

/-- Four detections in four distinct contexts, used to exercise the
Stats Aggregator with a dropped fourth entry. -/
def wStats : List Candidate :=
  [⟨0, 0, "tent", "street", 1, 0⟩, ⟨0, 0, "tent", "park", 1, 0⟩,
   ⟨0, 0, "tent", "subway", 1, 0⟩, ⟨0, 0, "tent", "bus", 1, 0⟩]

/-- C7 witness: on four singleton contexts, `street` (first seen) is kept,
`bus` (fourth seen) is dropped, and the dropped count does not exceed the
kept count. -/
theorem c7_witness :
    (0, ("street", 1)) ∈ getContextStatsIdx wStats ∧
      (3, ("bus", 1)) ∈ (contextCounts wStats).enum ∧
      (3, ("bus", 1)) ∉ getContextStatsIdx wStats ∧
      (3, ("bus", 1)).2.2 ≤ (0, ("street", 1)).2.2 :=
  ⟨by decide, by decide, by decide,
    (c7_context_stats_top3 wStats).2.2.2 (0, ("street", 1)) (by decide)
      (3, ("bus", 1)) (by decide) (by decide)⟩

/-! ### Helper lemmas for the overlay-ring claim. -/

theorem overlayAppend_length (ring : List Detection) (d : Detection) :
    (overlayAppend ring d).length = min ring.length 4 + 1 := by
  unfold overlayAppend
  rw [List.length_append, List.length_drop]
  simp
  omega

theorem feed_store_projection (ops : List FeedOp) :
    ∀ fs : FeedState,
      (List.foldl feedStep fs ops).store = List.foldl storeStep fs.store ops := by
  induction ops with
  | nil => intro fs; rfl
  | cons op ops ih =>
      intro fs
      rw [List.foldl_cons, List.foldl_cons, ih]
      cases op <;> rfl

theorem feed_ring_bounded (ops : List FeedOp) :
    ∀ fs : FeedState, fs.ring.length ≤ 5 →
      (List.foldl feedStep fs ops).ring.length ≤ 5 := by
  induction ops with
  | nil => intro fs h; exact h
  | cons op ops ih =>
      intro fs h
      rw [List.foldl_cons]
      apply ih
      cases op with
      | arrive d loc newId tObs tRec =>
          show (overlayAppend fs.ring d).length ≤ 5
          rw [overlayAppend_length]
          omega
      | expire i =>
          show (overlayExpire fs.ring i).length ≤ 5
          exact le_trans (List.length_filter_le _ _) h

theorem mem_overlayExpire (ring : List Detection) (i : ℕ) (x : Detection)
    (h : x ∈ overlayExpire ring i) : x.id ≠ i := by
  have hx := (List.mem_filter.mp h).2
  simpa [bne_iff_ne] using hx

/-- C8: starting from an empty overlay ring and store, after any sequence
of detection arrivals and overlay-expiry timeouts the overlay ring holds at
most 5 detections; the durable store is a function of the events alone
(`storeStep` never reads the ring, so the ring never affects the durable
view); one append keeps the `min(previous, 4)` most recent previous
overlays plus the new one; the expiry timeout fires after 3000 ms and
removes every overlay carrying the expired id. -/
theorem c8_overlay_ring_invariants (ops : List FeedOp) :
    (List.foldl feedStep ⟨[], []⟩ ops).ring.length ≤ 5 ∧
      (List.foldl feedStep ⟨[], []⟩ ops).store = List.foldl storeStep [] ops ∧
      overlayDisplayMs = 3000 ∧
      (∀ ring d, (overlayAppend ring d).length = min ring.length 4 + 1) ∧
      (∀ ring i, ∀ x ∈ overlayExpire ring i, x.id ≠ i) :=
  ⟨feed_ring_bounded ops ⟨[], []⟩ (by simp), feed_store_projection ops ⟨[], []⟩,
    rfl, overlayAppend_length, fun ring i x h => mem_overlayExpire ring i x h⟩

/-- A concrete overlay entry with id 1. -/
def wOverlay : Detection :=
  ⟨1, "tent", "street", 1, 0, 0, 0, 0⟩

/-- C8 witness: expiring id 0 keeps the id-1 overlay, whose id the claim
theorem then shows differs from the expired id. -/
theorem c8_witness :
    wOverlay ∈ overlayExpire [wOverlay] 0 ∧ wOverlay.id ≠ 0 :=
  ⟨by decide,
    (c8_overlay_ring_invariants []).2.2.2.2 [wOverlay] 0 wOverlay (by decide)⟩

/-- What the spec requires of every simulator-produced candidate:
confidence inside `[0.75, 0.95)`, a context drawn from the five-element
array (hence never `unknown`), a type drawn from the three-element array,
and acceptance by every CHECK constraint whatever coordinates and
timestamp accompany it. -/
def detectorOutputOk (d : Detection) : Prop :=
  (0.75 ≤ d.confidence ∧ d.confidence < 0.95) ∧
    d.type ∈ mockTypes ∧ d.context ∈ mockContexts ∧ d.context ≠ "unknown" ∧
    ∀ la lo : ℚ, ∀ tOb : ℕ,
      checkCandidate ⟨la, lo, d.type, d.context, d.confidence, tOb⟩ = none

/-- C10: whatever values the `Math.random()` draws take in `[0, 1)`, the
simulated detection has confidence in `[0.75, 0.95)`, a context from the
five listed contexts (never `unknown`), a type from the three listed
types, and passes every CHECK constraint — the simulator never produces a
rejected candidate. -/
theorem c10_mock_detection_always_valid (now : ℕ)
    (uType uCtx uConf ux uy uw uh : ℚ)
    (ht0 : 0 ≤ uType) (ht1 : uType < 1) (hc0 : 0 ≤ uCtx) (hc1 : uCtx < 1)
    (hf0 : 0 ≤ uConf) (hf1 : uConf < 1) :
    detectorOutputOk (mkMockDetection now uType uCtx uConf ux uy uw uh) := by
  have hTypeIdx : ⌊uType * 3⌋₊ < mockTypes.length := by
    rw [show mockTypes.length = 3 from rfl]
    refine (Nat.floor_lt (by positivity)).mpr ?_
    push_cast
    nlinarith
  have hCtxIdx : ⌊uCtx * 5⌋₊ < mockContexts.length := by
    rw [show mockContexts.length = 5 from rfl]
    refine (Nat.floor_lt (by positivity)).mpr ?_
    push_cast
    nlinarith
  have htype : (mkMockDetection now uType uCtx uConf ux uy uw uh).type ∈
      mockTypes := by
    show mockTypes.getD ⌊uType * 3⌋₊ missLabel ∈ mockTypes
    rw [List.getD_eq_getElem mockTypes missLabel hTypeIdx]
    exact List.getElem_mem hTypeIdx
  have hctx : (mkMockDetection now uType uCtx uConf ux uy uw uh).context ∈
      mockContexts := by
    show mockContexts.getD ⌊uCtx * 5⌋₊ missLabel ∈ mockContexts
    rw [List.getD_eq_getElem mockContexts missLabel hCtxIdx]
    exact List.getElem_mem hCtxIdx
  have hconf0 : (0.75 : ℚ) ≤ 0.75 + uConf * 0.2 := by nlinarith
  have hconf1 : (0.75 : ℚ) + uConf * 0.2 < 0.95 := by nlinarith
  have hsub : ∀ s ∈ mockContexts, s ∈ contextLabels ∧ s ≠ "unknown" := by
    decide
  have htsub : ∀ s ∈ mockTypes, s ∈ objectTypes := by decide
  refine ⟨⟨hconf0, hconf1⟩, htype, hctx, (hsub _ hctx).2, ?_⟩
  intro la lo tOb
  apply (checkCandidate_eq_none_iff _).mpr
  refine ⟨(objectTypeOk_iff _).mpr (htsub _ htype),
    (contextOk_iff _).mpr (hsub _ hctx).1, (confidenceOk_iff _).mpr ⟨?_, ?_⟩⟩
  · show (0 : ℚ) ≤ 0.75 + uConf * 0.2
    linarith
  · show (0.75 : ℚ) + uConf * 0.2 ≤ 1
    linarith

/-- C10 witness: with every random draw equal to 1/2 the simulated
detection (confidence 0.85, context `subway`, type `blanket`) satisfies
every stated bound and is accepted. -/
theorem c10_witness :
    detectorOutputOk (mkMockDetection 0 (1/2) (1/2) (1/2) 0 0 0 0) :=
  c10_mock_detection_always_valid 0 (1/2) (1/2) (1/2) 0 0 0 0
    (by norm_num) (by norm_num) (by norm_num) (by norm_num) (by norm_num)
    (by norm_num)

end ShelterMap
